import Mathlib

/-!
Verification of the command/flag parsing engine of `pydeepseek`
(`src/deepseek/cli_parser.py` and the numeric helpers of
`src/deepseek/utils.py`), shallowly embedded in Lean.

Conventions of the embedding:
* Python runtime values that flow through the engine are modelled by `PyVal`
  (`None`, `bool`, `int`, `str`, `list`, the one 2-tuple the engine builds,
  and string-keyed `dict`s — the only dict shapes the engine stores in
  results).  The position dict of `parse_line`, which is keyed by integer
  indices, is modelled separately as a `List (Nat × String)`.
* Unhandled Python exceptions (NameError, TypeError, IndexError, KeyError,
  AssertionError, bare `raise Exception`) are modelled by `Except PyErr`.
* Python object identity for `Flag` descriptors is modelled by a store
  (`Command.store`) of flags addressed by index; the `flags` dict maps
  names and aliases to indices, so several keys naming one index model
  several dict keys holding one object.
* `re.search(pattern, s, re.I)` is kept abstract as a parameter
  `reI : String → String → Bool` of every function that (transitively) may
  call it; no theorem below depends on the behaviour of regex matching.
* The parameter called `prefix` in the Python sources is called `pre` here.
-/

/-- Python values handled by the engine. -/
inductive PyVal where
  | none
  | bool (b : Bool)
  | int (n : Int)
  | str (s : String)
  | list (xs : List PyVal)
  | tuple (a b : PyVal)
  | dict (entries : List (String × PyVal))

/-- Unhandled Python exceptions. -/
inductive PyErr where
  | nameError
  | typeError
  | indexError
  | keyError
  | assertionError
  | exception
deriving DecidableEq, Repr

mutual

/-- Structural boolean equality on `PyVal`. -/
def PyVal.beq : PyVal → PyVal → Bool
  | .none, .none => true
  | .bool a, .bool b => a == b
  | .int a, .int b => a == b
  | .str a, .str b => a == b
  | .list xs, .list ys => PyVal.beqList xs ys
  | .tuple a b, .tuple c d => PyVal.beq a c && PyVal.beq b d
  | .dict es, .dict fs => PyVal.beqDict es fs
  | _, _ => false

/-- Elementwise `PyVal.beq` on lists. -/
def PyVal.beqList : List PyVal → List PyVal → Bool
  | [], [] => true
  | x :: xs, y :: ys => PyVal.beq x y && PyVal.beqList xs ys
  | _, _ => false

/-- Entrywise `PyVal.beq` on dict entry lists. -/
def PyVal.beqDict : List (String × PyVal) → List (String × PyVal) → Bool
  | [], [] => true
  | (k, x) :: xs, (l, y) :: ys => k == l && PyVal.beq x y && PyVal.beqDict xs ys
  | _, _ => false

end

/-- Python truthiness of a value (`bool(v)`). -/
def pyTruthy : PyVal → Bool
  | .none => false
  | .bool b => b
  | .int n => n != 0
  | .str s => s != ""
  | .list xs => !xs.isEmpty
  | .tuple _ _ => true
  | .dict d => !d.isEmpty

/-- Python `==` for the values compared by the engine: `bool` is an `int`
subtype (`True == 1`), everything else compares structurally; cross-type
comparisons are `False`, which structural equality also gives. -/
def pyEq (a b : PyVal) : Bool :=
  match a, b with
  | .bool x, .int y => (if x then (1 : Int) else 0) == y
  | .int x, .bool y => x == (if y then (1 : Int) else 0)
  | a, b => PyVal.beq a b

mutual

/-- Python `repr()` for the embedded values. -/
def pyRepr : PyVal → String
  | .none => "None"
  | .bool true => "True"
  | .bool false => "False"
  | .int n => toString n
  | .str s => "'" ++ s ++ "'"
  | .list xs => "[" ++ String.intercalate ", " (pyReprList xs) ++ "]"
  | .tuple a b => "(" ++ pyRepr a ++ ", " ++ pyRepr b ++ ")"
  | .dict es => "\x7b" ++ String.intercalate ", " (pyReprDict es) ++ "\x7d"

/-- `repr()` of each element of a list. -/
def pyReprList : List PyVal → List String
  | [] => []
  | x :: xs => pyRepr x :: pyReprList xs

/-- `repr()` of each entry of a dict. -/
def pyReprDict : List (String × PyVal) → List String
  | [] => []
  | (k, v) :: es => ("'" ++ k ++ "': " ++ pyRepr v) :: pyReprDict es

end

instance : Repr PyVal := ⟨fun v _ => Std.Format.text (pyRepr v)⟩

/-- Python `str()` (as used by f-string interpolation). -/
def pyStr : PyVal → String
  | .str s => s
  | v => pyRepr v

/-- Python `len()`; raises `TypeError` on values without a length. -/
def pyLen : PyVal → Except PyErr Int
  | .str s => pure s.length
  | .list xs => pure xs.length
  | .tuple _ _ => pure 2
  | .dict es => pure es.length
  | _ => throw .typeError

/-- Python `v[0]`; the engine only ever subscripts with the constant `0`. -/
def pyGetItem0 : PyVal → Except PyErr PyVal
  | .str s =>
      match s.data with
      | [] => throw .indexError
      | c :: _ => pure (.str (String.mk [c]))
  | .list xs =>
      match xs with
      | [] => throw .indexError
      | x :: _ => pure x
  | .tuple a _ => pure a
  | _ => throw .typeError

/-- Lookup in a string-keyed Python dict (`d.get(k)`). -/
def dictGet {α : Type} (d : List (String × α)) (k : String) : Option α :=
  (d.find? fun e => e.1 == k).map (·.2)

/-- Assignment into a string-keyed Python dict (`d[k] = v`). -/
def dictSet {α : Type} (d : List (String × α)) (k : String) (v : α) :
    List (String × α) :=
  (d.filter fun e => e.1 != k) ++ [(k, v)]

/-- Python `list.index(x)` (position of the first occurrence, if any). -/
def listIndex (l : List String) (x : String) : Option Nat :=
  match l with
  | [] => none
  | y :: ys => if y == x then some 0 else (listIndex ys x).map (· + 1)

namespace CliParser

/-- The `Result` namedtuple `(ok, msg, value)` of `cli_parser.py`. -/
structure Result where
  ok : PyVal
  msg : PyVal
  value : PyVal
deriving Repr

/-- The `Validator` union type of `cli_parser.py`: a regex string, a list of
allowed strings, a string-keyed mapping, a callable, or `None`.
(`re.Pattern` validators are never registered and are omitted.) -/
inductive Validator where
  | noneV
  | strV (pat : String)
  | listV (xs : List String)
  | dictV (entries : List (String × PyVal))
  | funV (f : PyVal → Result)

/-- Python truthiness of a validator value (`if self.validator:` etc.):
`None`, `''`, `[]` and an empty dict are falsy, callables are truthy. -/
def vTruthy : Validator → Bool
  | .noneV => false
  | .strV pat => pat != ""
  | .listV xs => !xs.isEmpty
  | .dictV es => !es.isEmpty
  | .funV _ => true

/-- The message helper nested in `validate` (and in `check_nargs`):
prefix the message with `pre ++ ": "` unless the prefix is empty. -/
def make_msg (pre msg : String) : String :=
  if pre = "" then msg else pre ++ ": " ++ msg

/-- `validate(args, validator, prefix)` (cli_parser.py lines 59-117).
A one-element list is unwrapped to its element first; every non-callable
validator then demands a string and answers `Expected string` otherwise. -/
def validate (reI : String → String → Bool) (args0 : PyVal)
    (validator : Validator) (pre : String) : Result :=
  let args := match args0 with
    | .list [x] => x
    | a => a
  let not_str : Result :=
    ⟨.bool false, .str (make_msg pre ("Expected string, got `" ++ pyStr args ++ "`")), args⟩
  match validator with
  | .strV pat =>
      match args with
      | .str s =>
          if !(reI pat s) then
            ⟨.bool false,
             .str (make_msg pre ("Could not match `" ++ pat ++ "` with `" ++ s ++ "`")),
             .str s⟩
          else ⟨.bool true, .none, .str s⟩
      | _ => not_str
  | .listV xs =>
      match args with
      | .str s =>
          if !(xs.contains s) then
            ⟨.bool false,
             .str (make_msg pre
               ("Expected value(s): " ++ ("`" ++ String.intercalate ", " xs ++ "`") ++
                ", got `" ++ s ++ "`")),
             .none⟩
          else ⟨.bool true, .none, .str s⟩
      | _ => not_str
  | .dictV es =>
      match args with
      | .str s =>
          -- `elif value := validator.get(args):` — the *truthiness* of the
          -- mapped value decides the branch, not key membership
          match dictGet es s with
          | some v =>
              if pyTruthy v then ⟨.bool true, .none, v⟩
              else
                ⟨.bool false,
                 .str (make_msg pre
                   ("Expected value(s): " ++
                    ("`" ++ String.intercalate ", " (es.map (·.1)) ++ "`") ++
                    ", got `" ++ s ++ "`")),
                 .str s⟩
          | none =>
              ⟨.bool false,
               .str (make_msg pre
                 ("Expected value(s): " ++
                  ("`" ++ String.intercalate ", " (es.map (·.1)) ++ "`") ++
                  ", got `" ++ s ++ "`")),
               .str s⟩
      | _ => not_str
  | .funV f =>
      let r := f args
      if !(pyTruthy r.ok) then
        ⟨.bool false, .str (make_msg pre ("Assertion error: " ++ pyStr r.msg)), args⟩
      else ⟨.bool true, .none, r.value⟩
  | .noneV => ⟨.bool true, .none, args⟩

/-- `check_nargs(tokens, nargs, prefix)` (cli_parser.py lines 120-152).
`parse_line` always passes a list of tokens.  The `match` has cases for
`'+'`, `'?'` and `int`; everything else (in particular `'*'`) falls through
to the final `Result(True, None, tokens)`. -/
def check_nargs (tokens : List String) (nargs : PyVal) (pre : String) : Result :=
  let l : Nat := tokens.length
  let toks : PyVal := .list (tokens.map .str)
  match nargs with
  | .str "+" =>
      if l = 0 then ⟨.bool false, .str (make_msg pre "No arguments passed"), toks⟩
      else ⟨.bool true, .none, toks⟩
  | .str "?" =>
      if l > 1 then
        ⟨.bool false,
         .str (make_msg pre ("Expected 0 or 1 argument, got " ++ toString l)), toks⟩
      else ⟨.bool true, .none, toks⟩
  | .int n =>
      if (l : Int) ≠ n then
        ⟨.bool false,
         .str (make_msg pre
           ("Expected " ++ toString n ++ " arguments, got " ++ toString l)), toks⟩
      else ⟨.bool true, .none, toks⟩
  | _ => ⟨.bool true, .none, toks⟩

/-- The `Flag` descriptor (cli_parser.py lines 155-245); the print-only
fields `metavar` and `help` are omitted. -/
structure Flag where
  command : String
  name : String
  nargs : PyVal
  validator : Validator
  value : PyVal
  default : PyVal
  aliases : List String

/-- `Flag.check` (lines 180-184). -/
def Flag.check (reI : String → String → Bool) (f : Flag) (value : PyVal)
    (pre : String) : Result :=
  if vTruthy f.validator then validate reI value f.validator pre
  else ⟨.bool true, .none, value⟩

/-- `Flag.make_msg` (lines 186-190).  The source's condition is inverted:
a *non-empty* prefix drops the prefix, an empty one prepends `": "`. -/
def Flag.make_msg (_f : Flag) (msg : String) (pre : String) : String :=
  if pre.length > 0 then msg else pre ++ ": " ++ msg

/-- Lines 231-235 of `Flag.set_value`: given `res = self.check(value, prefix)`,
return the failure unchanged or store `res.value` as the flag's value and
fall through to the success `Result`. -/
def Flag.set_value_fin (f : Flag) (res : Result) : Result × Flag :=
  if !(pyTruthy res.ok) then (res, f)
  else
    let f' := {f with value := res.value}
    (⟨.bool true, .none, f'.value⟩, f')

/-- The body of `Flag.set_value` after list unwrapping (lines 223-245),
with `value` equal to Python `None` or not. -/
def Flag.set_value_aux (reI : String → String → Bool) (f : Flag) (value : PyVal)
    (pre : String) : Result × Flag :=
  if !(PyVal.beq value .none) then
    if pyEq f.nargs (.int 0) then
      -- source line 228 really stores the value under the 'nargs' key
      (⟨.bool false, .str (f.make_msg "Expected no arguments" pre),
        .dict [("nargs", value), ("value", value)]⟩, f)
    else
      f.set_value_fin (f.check reI value pre)
  else
    if pyEq f.nargs (.int 1) then
      (⟨.bool false, .str (f.make_msg "Expected at least one argument" pre),
        .dict [("nargs", f.nargs), ("value", .none)]⟩, f)
    else
      let f' := {f with value := .bool true}
      (⟨.bool true, .none, f'.value⟩, f')

/-- `Flag.set_value(value, prefix)` (lines 205-245).  A list argument of
length `> 1` is rejected, a singleton is unwrapped, an empty list recurses
with `value=None`. -/
def Flag.set_value (reI : String → String → Bool) (f : Flag) (value : PyVal)
    (pre : String) : Result × Flag :=
  match value with
  | .list xs =>
      if xs.length > 1 then
        (⟨.bool false, .str (f.make_msg "Expected at most 1 argument" pre),
          .dict [("nargs", f.nargs), ("value", .list xs)]⟩, f)
      else
        match xs with
        | [x] => f.set_value_aux reI x pre
        | _ => f.set_value_aux reI .none pre
  | v => f.set_value_aux reI v pre

/-- The `Command` descriptor (cli_parser.py lines 278-294); `help` and the
print-only machinery are omitted.  `store`/`flags` model the Python heap:
`self.flags` maps names *and aliases* to indices of the one `Flag` object
they share. -/
structure Command where
  name : String
  nargs : PyVal
  validator : Validator
  aliases : List String
  args : PyVal
  store : List Flag
  flags : List (String × Nat)
  flagsAliases : List (String × Bool)

/-- `Command.__init__`. -/
def Command.init (name : String) (nargs : PyVal) (validator : Validator)
    (aliases : List String) : Command :=
  ⟨name, nargs, validator, aliases, .list [], [], [], []⟩

/-- The body of the alias loop of `add_flag` (lines 370-373):
`self.flags[a] = self.flags[name]; self._flags_aliases[a] = True`, where the
shared object is the store index `fid`. -/
def Command.addAliasStep (fid : Nat) (acc : Command) (a : String) : Command :=
  {acc with flags := dictSet acc.flags a fid,
            flagsAliases := dictSet acc.flagsAliases a true}

/-- `Command.add_flag` (lines 347-375): reject `nargs` outside `0 | 1 | '?'`
with a bare `Exception`, then register one new `Flag` object under its name
and every alias (all map keys share the same object = store index).  The
`setattr(self, name, default)` attribute mirror is not modelled. -/
def Command.add_flag (c : Command) (name : String) (nargs : PyVal)
    (validator : Validator) (default : PyVal) (aliases : List String) :
    Except PyErr Command :=
  if !(pyEq nargs (.int 0) || pyEq nargs (.int 1) || pyEq nargs (.str "?")) then
    throw .exception
  else
    let fl : Flag := ⟨c.name, name, nargs, validator, .none, default, aliases⟩
    let fid := c.store.length
    let c1 : Command :=
      {c with store := c.store ++ [fl], flags := dictSet c.flags name fid}
    pure (aliases.foldl (Command.addAliasStep fid) c1)

/-- `add_flag` always succeeds when `nargs` is `0`, `1` or `'?'`; this total
wrapper is used to build the concrete commands of the examples below. -/
def Command.addFlagD (c : Command) (name : String) (nargs : PyVal)
    (validator : Validator) (default : PyVal) (aliases : List String) : Command :=
  (c.add_flag name nargs validator default aliases).toOption.getD c

/-- `self.flags.get(s)`, resolving the index to the stored object. -/
def Command.getFlagObj (c : Command) (s : String) : Option Flag :=
  (dictGet c.flags s).bind fun i => c.store.get? i

/-- The store index `self.flags.get(s)` points at (object identity). -/
def Command.flagId (c : Command) (s : String) : Option Nat :=
  dictGet c.flags s

/-- Replace the flag object at index `i` of the store (Python mutation of
the object that every alias of that flag shares). -/
def Command.setStore (c : Command) (i : Nat) (f : Flag) : Command :=
  {c with store := c.store.set i f}

/-- `self.flags[alias].value = v`: mutate the shared `Flag` object reached
through any of its dict keys (as `parse_args` line 524-530 does);
`none` when the key is absent. -/
def Command.writeFlagValue (c : Command) (s : String) (v : PyVal) :
    Option Command :=
  (c.flagId s).bind fun i =>
    (c.store.get? i).map fun f => c.setStore i {f with value := v}

/-- `Command.__getitem__` (lines 377-379): the flag's current `value` if the
name or alias is registered, Python `None` (here `Option.none`) otherwise. -/
def Command.getItem (c : Command) (s : String) : Option PyVal :=
  (c.getFlagObj s).map (·.value)

/-- `Command.query_flag` (lines 381-397) specialised to the one attribute
the engine queries (`"nargs"`). -/
def Command.query_flag (c : Command) (flag : String) (attrib : String) : Result :=
  match c.getFlagObj flag with
  | some f => ⟨.bool true, .none, if attrib = "nargs" then f.nargs else .none⟩
  | none => ⟨.bool false,
      .str (c.name ++ "." ++ flag ++ ": No specification provided"),
      .dict [("command", .str c.name)]⟩

/-- `pos.get(word)` of `parse_line` line 421: `pos` is keyed by the integer
token index, but queried with the flag-name *string*; with Python `==`
an `int` key never equals a `str` query, so this lookup never hits. -/
def posGet (pos : List (Nat × String)) (w : String) : Option String :=
  (pos.find? fun p => pyEq (.int p.1) (.str w)).map (·.2)

/-- `sorted(pos, key=lambda x: x[0])`: insertion sort on the index. -/
def insertSorted (x : Nat × String) : List (Nat × String) → List (Nat × String)
  | [] => [x]
  | y :: ys => if x.1 ≤ y.1 then x :: y :: ys else y :: insertSorted x ys

/-- Sort the `(index, flag-name)` pairs by index. -/
def sortPairs : List (Nat × String) → List (Nat × String)
  | [] => []
  | x :: xs => insertSorted x (sortPairs xs)

/-- The marker scan of `parse_line` (lines 414-428): walk the (pre-`--`)
tokens; a token whose first character is `-` is a flag marker, looked up by
the literal remainder of the token.  Unknown names fail, the (dead)
duplicate check queries `pos` with a string against its integer keys,
and a marker at `i > 0` with no marker before it fails as redundant
leading arguments.  `argsAll` is `args_`, the pre-truncation token list
used in failure payloads. -/
def Command.scanFlags (c : Command) (argsAll : List String) :
    List String → Nat → List (Nat × String) → Nat →
    Except PyErr (Result ⊕ List (Nat × String))
  | [], _, pos, _ => pure (.inr pos)
  | w :: ws, i, pos, ctr =>
      match w.data with
      | [] => throw .indexError
      | ch :: rest =>
          if ch = '-' then
            let word : String := ⟨rest⟩
            match c.getFlagObj word with
            | none =>
                pure (.inl ⟨.bool false,
                  .str (c.name ++ "." ++ word ++ ": No specification provided"),
                  .list (argsAll.map .str)⟩)
            | some fl =>
                if (posGet pos word).isSome then
                  pure (.inl ⟨.bool false,
                    .str (c.name ++ "." ++ word ++ ": Duplicate flag"),
                    .list (argsAll.map .str)⟩)
                else if i > 0 ∧ ctr = 0 then
                  pure (.inl ⟨.bool false,
                    .str (c.name ++ ": Redundant arguments passed before flag ." ++ word),
                    .list (argsAll.map .str)⟩)
                else
                  c.scanFlags argsAll ws (i + 1) (pos ++ [(i, fl.name)]) (ctr + 1)
          else
            c.scanFlags argsAll ws (i + 1) pos ctr

/-- The common tail of `parse_line` (lines 484-488): arity-check the
positional list against the command's own `nargs`, then return the
`(positional, flags)` success tuple. -/
def Command.finishParse (c : Command) (positional : List String)
    (flags : List (String × PyVal)) : Except PyErr (Result × Command) :=
  let res := check_nargs positional c.nargs c.name
  if !(pyTruthy res.ok) then pure (res, c)
  else pure (⟨.bool true, .none,
    .tuple (.list (positional.map .str)) (.dict flags)⟩, c)

/-- `Command.parse_line` (lines 399-488).  Tokens after a literal `--` are
positional; markers are scanned; then the loop over every marker except the
last either returns a failed `nargs` lookup or hits the undefined name
`obj` (line 445) — a `NameError` — so no iteration of that loop ever
completes; the last marker consumes at most its arity from its trailing
run, pushing the rest to the positionals. -/
def Command.parse_line (reI : String → String → Bool) (c : Command)
    (args0 : List String) : Except PyErr (Result × Command) := do
  let args_ := args0
  let (args, positional0) :=
    match listIndex args0 "--" with
    | some i => (args0.take i, args0.drop (i + 1))
    | none => (args0, [])
  let sr ← c.scanFlags args_ args 0 [] 0
  match sr with
  | .inl r => pure (r, c)
  | .inr posU =>
    let pos := sortPairs posU
    match pos with
    | pa :: _ :: _ =>
        -- `for i in range(len(pos)-1)`: the body either returns the failed
        -- `nargs` lookup or raises `NameError` on the undefined `obj`
        let nargsRes := c.query_flag pa.2 "nargs"
        if !(pyTruthy nargsRes.ok) then pure (nargsRes, c)
        else throw .nameError
    | [(lastInd, lastFlag)] =>
        let last_args := args.drop (lastInd + 1)
        let nargsRes := c.query_flag lastFlag "nargs"
        let pre := c.name ++ "." ++ lastFlag
        if !(pyTruthy nargsRes.ok) then pure (nargsRes, c)
        else
          let nargs := nargsRes.value
          let (positional1, last_args1) :=
            if last_args.length > 0 then
              if pyEq nargs (.int 0) then (positional0 ++ last_args, ([] : List String))
              else (positional0 ++ last_args.drop 1, last_args.take 1)
            else (positional0, last_args)
          match c.flagId lastFlag, c.getFlagObj lastFlag with
          | some fid, some lastObj =>
              let (res, lastObj') :=
                lastObj.set_value reI (.list (last_args1.map .str)) pre
              let c' := c.setStore fid lastObj'
              if !(pyTruthy res.ok) then pure (res, c')
              else c'.finishParse positional1 [(lastFlag, lastObj'.value)]
          | _, _ => throw .keyError
    | [] =>
        c.finishParse (args ++ positional0) []

/-- `str.join` over a Python list; `TypeError` on non-string elements. -/
def pyJoin (j : String) (v : PyVal) : Except PyErr String := do
  match v with
  | .list xs =>
      let strs ← xs.mapM fun x =>
        match x with
        | .str s => pure s
        | _ => throw PyErr.typeError
      pure (String.intercalate j strs)
  | _ => throw .typeError

/-- The flag-committing loop of `parse_args` (lines 513-530).  Note that it
branches on the *command's* `nargs`, that `len(value)` raises `TypeError`
whenever a flag's stored value is a bool, and that aliases are skipped
after the (possibly raising) dict access. -/
def Command.kwLoop (c : Command) (nargs : PyVal) :
    List (String × PyVal) → Except PyErr Command
  | [] => pure c
  | (flag, value) :: rest => do
      let l ← pyLen value
      match c.flagId flag, c.getFlagObj flag with
      | some fid, some flag_obj =>
          if (dictGet c.flagsAliases flag).isSome then
            c.kwLoop nargs rest
          else do
            let c' ←
              if pyEq nargs (.str "?") then do
                let v ← if l > 0 then pyGetItem0 value else pure (PyVal.bool true)
                pure (c.setStore fid {flag_obj with value := v})
              else if pyEq nargs (.int 1) then do
                let v ← pyGetItem0 value
                pure (c.setStore fid {flag_obj with value := v})
              else if pyEq nargs (.int 0) then
                pure (c.setStore fid {flag_obj with value := .bool true})
              else
                pure c
            c'.kwLoop nargs rest
      | _, _ => throw .keyError

/-- `Command.parse_args` (lines 490-532): delegate to `parse_line`, rewrap
failures, optionally join the positionals, run the command's validator if
it is truthy, then commit flag values.  The success `Result`'s `value` is
`self`; it is modelled by the `Command` returned alongside. -/
def Command.parse_args (reI : String → String → Bool) (c : Command)
    (args0 : List String) (join_args : Option String) :
    Except PyErr (Result × Command) := do
  let nargs := c.nargs
  let cmd := c.name
  let (res, c1) ← c.parse_line reI args0
  if !(pyTruthy res.ok) then
    pure (⟨.bool false, res.msg, .list (args0.map .str)⟩, c1)
  else
    match res.value with
    | .tuple pargsV (.dict kwargs) =>
        let pargs : PyVal ←
          match join_args with
          | some j => do pure (PyVal.str (← pyJoin j pargsV))
          | none => pure pargsV
        if vTruthy c1.validator then
          let vres := validate reI pargs c1.validator (cmd ++ " (arguments)")
          if !(pyTruthy vres.ok) then pure (⟨.bool false, vres.msg, pargs⟩, c1)
          else do
            let c2 := {c1 with args := pargs}
            let c3 ← c2.kwLoop nargs kwargs
            pure (⟨.bool true, .none, .none⟩, c3)
        else do
          let c2 := {c1 with args := pargs}
          let c3 ← c2.kwLoop nargs kwargs
          pure (⟨.bool true, .none, .none⟩, c3)
    | _ => throw .typeError

/-- Python whitespace, as stripped by `str.strip()`. -/
def isPyWS (c : Char) : Bool :=
  c = ' ' || c = '\t' || c = '\n' || c = '\r' || c = '\x0b' || c = '\x0c'

/-- `str.strip()` on a character list. -/
def pyStrip (l : List Char) : List Char :=
  ((l.dropWhile isPyWS).reverse.dropWhile isPyWS).reverse

/-- `re.split(r' +', s)` restricted to its non-empty pieces: maximal runs
of non-space characters. -/
def splitSp : List Char → List Char → List (List Char)
  | [], acc => if acc.isEmpty then [] else [acc.reverse]
  | c :: cs, acc =>
      if c = ' ' then
        if acc.isEmpty then splitSp cs [] else acc.reverse :: splitSp cs []
      else splitSp cs (c :: acc)

/-- The result of `split` (cli_parser.py lines 262-275), a `Result` whose
`value` is the token list on success and `None` on failure.  `len()` of
this namedtuple is its field count, `3`. -/
structure SplitRes where
  ok : PyVal
  msg : PyVal
  value : Option (List String)

/-- `len(tokens)` where `tokens` is the `Result` namedtuple returned by
`split`: namedtuples have a length — their number of fields, here `3`. -/
def splitResLen (_ : SplitRes) : Nat := 3

/-- `split(s)` (lines 262-275) with the default pattern `' +'`:
split on runs of spaces, strip each non-empty piece, and fail with
`"No command or argument(s) given"` when no tokens remain. -/
def split (s : String) : SplitRes :=
  let words := (splitSp s.data []).map fun g => String.mk (pyStrip g)
  if words.isEmpty then ⟨.bool false, .str "No command or argument(s) given", none⟩
  else ⟨.bool true, .none, some words⟩

/-- The `Parser` registry (lines 535-560).  Python stores the same
`Command` object under its name and every alias; no claim below mutates a
command through an alias, so the registry maps each key to a copy. -/
structure Parser where
  commands : List (String × Command)
  commandsAliases : List (String × Bool)

/-- `Parser.__init__`. -/
def Parser.init : Parser := ⟨[], []⟩

/-- `Parser.add_command` (lines 544-560). -/
def Parser.add_command (p : Parser) (name : String) (nargs : PyVal)
    (validator : Validator) (aliases : List String) : Parser :=
  let cmd := Command.init name nargs validator aliases
  let p1 : Parser := {p with commands := dictSet p.commands name cmd}
  aliases.foldl
    (fun acc a =>
      {acc with commands := dictSet acc.commands a cmd,
                commandsAliases := dictSet acc.commandsAliases a true})
    p1

/-- `Parser.parse(line)` (lines 581-598).  `split` returns its `Result`
namedtuple, whose `len()` is always `3`, so the `if len(tokens) == 0`
guard is dead; on an empty tokenisation `tokens.value` is `None` and
`tokens[0]` raises `TypeError`.  The updated command state accompanies the
result on the `parse_args` path. -/
def Parser.parse (reI : String → String → Bool) (p : Parser) (line : String) :
    Except PyErr (Result × Option Command) := do
  let tokens := split line
  if splitResLen tokens = 0 then
    pure (⟨.bool false, .str "No input provided", .str line⟩, none)
  else
    match tokens.value with
    | none => throw .typeError
    | some toks =>
        match toks with
        | [] => throw .indexError
        | cmdName :: rest =>
            match dictGet p.commands cmdName with
            | none =>
                pure (⟨.bool false,
                  .str ("Invalid command provided. Expected any of " ++
                    String.intercalate ", " (p.commands.map (·.1))),
                  .str line⟩, none)
            | some cmd => do
                let (r, c') ← cmd.parse_args reI rest none
                pure (r, some c')

/-- Modelled from the spec: `extract()` (spec §4.2, §8 round-trip, glossary
"one-shot extraction") appears nowhere in the sources provided — the
`Flag` class of `cli_parser.py` only has `set_value`/`reset`.  Following
the spec's words: return `currentValue` if set, else the configured
default, and reset `currentValue` to unset. -/
def Flag.extract (f : Flag) : PyVal × Flag :=
  (if PyVal.beq f.value .none then f.default else f.value,
   {f with value := .none})

end CliParser

namespace Utils

/-- The match of `re.search(r'^[0-9]+$', s)` in `utils.parse_int`:
`s` is one or more ASCII digits. -/
def isDigits (s : String) : Bool :=
  !(s.data.isEmpty) && s.data.all (·.isDigit)

/-- `int(s)` for a digit string. -/
def strToInt (s : String) : Int :=
  Int.ofNat (s.data.foldl (fun a c => a * 10 + (c.toNat - 48)) 0)

/-- `utils.parse_int` (utils.py lines 116-121): unwrap a list to its head,
then return `Result(True, None, int(s))` on an all-digit token and
`Result(None, msg, s)` otherwise — note the falsy `ok=None`. -/
def parse_int (s0 : PyVal) : Except PyErr CliParser.Result := do
  let s ← match s0 with
    | .list xs => pyGetItem0 (.list xs)
    | v => pure v
  match s with
  | .str str =>
      if isDigits str then pure ⟨.bool true, .none, .int (strToInt str)⟩
      else pure ⟨.none, .str ("Expected an integer, got " ++ str), .str str⟩
  | _ => throw .typeError

/-- `utils.parse_int_in_range(start, end)` applied to one token
(utils.py lines 123-140): after the constructor's asserts, parse the token
with `parse_int`; propagate its failure `Result`; fail with the
out-of-range `Result` when `x < start or x >= end`; otherwise return the
**bare integer** (not a `Result`). -/
def parse_int_in_range (start e : Int) (x0 : PyVal) :
    Except PyErr (CliParser.Result ⊕ Int) := do
  if !(start ≥ 0) then throw .assertionError
  else if !(e > 0) then throw .assertionError
  else
    let x ← match x0 with
      | .list xs => pyGetItem0 (.list xs)
      | v => pure v
    let r ← parse_int x
    if !(pyTruthy r.ok) then pure (.inl r)
    else
      match r.value with
      | .int n =>
          if n < start ∨ n ≥ e then
            pure (.inl ⟨.bool false,
              .str ("Expected input to be in range " ++ toString start ++ "-" ++ toString e),
              .dict [("input", .int n)]⟩)
          else pure (.inr n)
      | _ => throw .typeError

end Utils

open CliParser

/-- Stand-in for `re.search(·, ·, re.I)` in concrete examples; none of the
examined execution paths reaches regex matching. -/
def reF : String → String → Bool := fun _ _ => false

/-- A command `cmd` taking any positionals, with one flag `flag` of arity 1. -/
def cmdFlag1 : Command :=
  (Command.init "cmd" (.str "*") .noneV []).addFlagD "flag" (.int 1) .noneV .none []

/-- A command `cmd` with two arity-1 flags `a` and `b`. -/
def cmdAB : Command :=
  ((Command.init "cmd" (.str "*") .noneV []).addFlagD "a" (.int 1) .noneV .none
    []).addFlagD "b" (.int 1) .noneV .none []

/-- A command `cmd` with a single arity-1 flag `a`. -/
def cmdA : Command :=
  (Command.init "cmd" (.str "*") .noneV []).addFlagD "a" (.int 1) .noneV .none []

/-- A registry with one ordinary command, as built by `CLI.setup`. -/
def pHelp : Parser := Parser.init.add_command "help" (.int 0) .noneV []

/-- An arity-1 flag with no validator and default `'dflt'`. -/
def flC6 : Flag := ⟨"cmd", "flag", .int 1, .noneV, .none, .str "dflt", []⟩

/-- `flC6` after a successful `set_value` of the token `"v"`. -/
def flC6v : Flag := ⟨"cmd", "flag", .int 1, .noneV, .str "v", .str "dflt", []⟩

/-- A command whose validator is the *empty* allowed-strings list (falsy). -/
def cmdEmptyListV : Command := Command.init "cmd" (.str "+") (.listV []) []

/-- A command whose validator is a non-empty allowed-strings list. -/
def cmdListV : Command := Command.init "cmd" (.str "+") (.listV ["x"]) []

/-- The base command of the alias example, before `add_flag`. -/
def cmdC9base : Command := Command.init "cmd" (.str "*") .noneV []

/-- `cmdC9base` after registering flag `verbose` with aliases `v`, `vb`. -/
def cmdC9 : Command :=
  cmdC9base.addFlagD "verbose" (.int 1) .noneV .none ["v", "vb"]

/-! ### Helper lemmas -/

theorem listIndex_eq_none {l : List String} {x : String} (h : x ∉ l) :
    listIndex l x = none := by
  induction l with
  | nil => rfl
  | cons y ys ih =>
      have hyx : ¬(y == x) = true := by
        simp only [beq_iff_eq]
        rintro rfl
        exact h (List.mem_cons_self _ _)
      have hx : x ∉ ys := fun hm => h (List.mem_cons_of_mem _ hm)
      simp [listIndex, hyx, ih hx]

theorem scanFlags_append_nonflag (c : Command) (A : List String) :
    ∀ (ps tl : List String) (i : Nat) (pos : List (Nat × String)) (ctr : Nat),
      (∀ p ∈ ps, p.data ≠ [] ∧ p.data.head? ≠ some '-') →
      c.scanFlags A (ps ++ tl) i pos ctr = c.scanFlags A tl (i + ps.length) pos ctr := by
  intro ps
  induction ps with
  | nil => intro tl i pos ctr _; simp
  | cons p ps ih =>
      intro tl i pos ctr h
      obtain ⟨hne, hhd⟩ := h p (List.mem_cons_self _ _)
      have hrest : ∀ q ∈ ps, q.data ≠ [] ∧ q.data.head? ≠ some '-' :=
        fun q hq => h q (List.mem_cons_of_mem _ hq)
      cases hd : p.data with
      | nil => exact absurd hd hne
      | cons ch rest =>
          have hch : ¬ ch = '-' := by
            intro hc
            apply hhd
            rw [hd, hc]
            rfl
          rw [List.cons_append, Command.scanFlags, hd]
          simp only [hch, if_false]
          rw [ih tl (i + 1) pos ctr hrest]
          congr 1
          simp [Nat.add_comm, Nat.add_assoc, Nat.add_left_comm]

theorem dictGet_dictSet_self {α : Type} (d : List (String × α)) (k : String) (v : α) :
    dictGet (dictSet d k v) k = some v := by
  induction d with
  | nil => simp [dictGet, dictSet, List.find?]
  | cons e d ih =>
      by_cases he : e.1 = k
      · simp [dictGet, dictSet, he, ih]
      · have hek : (e.1 == k) = false := beq_false_of_ne he
        simp [dictGet, dictSet, List.find?, hek, he, ih]

theorem find?_dictSet_ne {α : Type} (d : List (String × α)) (k k' : String) (v : α)
    (h : k ≠ k') :
    (dictSet d k' v).find? (fun e => e.1 == k) = d.find? (fun e => e.1 == k) := by
  induction d with
  | nil =>
      have hk : (k' == k) = false := beq_false_of_ne (Ne.symm h)
      simp [dictSet, List.find?, hk]
  | cons e d ih =>
      by_cases he : e.1 = k'
      · have hb : (e.1 != k') = false := by simp [bne, he]
        have hek : (e.1 == k) = false := by
          apply beq_false_of_ne
          rw [he]
          exact Ne.symm h
        simp only [dictSet, List.filter_cons, hb, if_false, Bool.false_eq_true,
          List.find?_cons, hek] at ih ⊢
        exact ih
      · have hb : (e.1 != k') = true := bne_iff_ne.mpr he
        simp only [dictSet, List.filter_cons, hb, if_true, List.cons_append,
          List.find?_cons] at ih ⊢
        cases hek : (e.1 == k) with
        | true => rfl
        | false => exact ih

theorem dictGet_dictSet_ne {α : Type} (d : List (String × α)) (k k' : String) (v : α)
    (h : k ≠ k') : dictGet (dictSet d k' v) k = dictGet d k := by
  unfold dictGet
  rw [find?_dictSet_ne d k k' v h]

theorem get?_append_length {α : Type} (l : List α) (x : α) :
    (l ++ [x]).get? l.length = some x := by
  induction l with
  | nil => rfl
  | cons a l ih =>
      simp only [List.cons_append, List.length_cons, List.get?]
      exact ih

theorem get?_set_self {α : Type} (l : List α) (n : Nat) (x : α) (h : n < l.length) :
    (l.set n x).get? n = some x := by
  induction l generalizing n with
  | nil => simp at h
  | cons a l ih =>
      cases n with
      | zero => rfl
      | succ n =>
          simp only [List.set, List.get?]
          exact ih n (Nat.lt_of_succ_lt_succ h)

theorem foldl_addAliasStep_store (fid : Nat) (as : List String) :
    ∀ acc : Command, (as.foldl (Command.addAliasStep fid) acc).store = acc.store := by
  induction as with
  | nil => intro acc; rfl
  | cons a as ih =>
      intro acc
      rw [List.foldl_cons, ih]
      rfl

theorem foldl_addAliasStep_flags (fid : Nat) (as : List String) :
    ∀ (acc : Command) (k : String),
      (k ∈ as ∨ dictGet acc.flags k = some fid) →
      dictGet (as.foldl (Command.addAliasStep fid) acc).flags k = some fid := by
  induction as with
  | nil =>
      intro acc k h
      rcases h with h | h
      · simp at h
      · exact h
  | cons a as ih =>
      intro acc k h
      rw [List.foldl_cons]
      by_cases hk : k = a
      · apply ih
        right
        subst hk
        exact dictGet_dictSet_self _ _ _
      · apply ih
        rcases h with h | h
        · rcases List.mem_cons.mp h with h | h
          · exact absurd h hk
          · exact Or.inl h
        · right
          rw [show (Command.addAliasStep fid acc a).flags = dictSet acc.flags a fid from rfl]
          rw [dictGet_dictSet_ne _ _ _ _ hk]
          exact h

/-! ### Claim theorems -/

/-- C2: the claim says a line with two or more resolvable flag markers binds
each non-last flag to the token run before the next marker and parses
successfully.  The code cannot: the loop over every marker except the last
(cli_parser.py line 445) calls `obj.set_value(...)` on the undefined name
`obj`, so `cmd -a x -b y` with arity-1 flags `a` and `b` raises `NameError`
instead of binding `a="x"`, `b="y"`. -/
theorem c2_two_flags_nameerror :
    cmdAB.parse_line reF ["-a", "x", "-b", "y"] = Except.error PyErr.nameError := rfl

/-- C3: the claim says an empty or all-whitespace line yields a typed
failure `Result` (`NoInputError`) and never an unhandled exception.  In the
code the guard `if len(tokens) == 0` (cli_parser.py line 583) tests the
`len` of the 3-field `Result` namedtuple returned by `split`, which is
always `3`; on an empty tokenisation `tokens.value` is `None` and
`tokens[0]` raises `TypeError` instead. -/
theorem c3_empty_line_typeerror :
    pHelp.parse reF "" = Except.error PyErr.typeError ∧
    pHelp.parse reF "   " = Except.error PyErr.typeError := ⟨rfl, rfl⟩

/-- C4: the claim says a repeated flag name fails with `DuplicateFlagError`.
The duplicate check (cli_parser.py line 421) queries the position dict
`pos` — keyed by integer indices — with the flag-name string, so it never
fires; `cmd -a x -a y` instead reaches the inter-marker loop and raises
`NameError` on the undefined `obj`. -/
theorem c4_duplicate_flag_nameerror :
    cmdA.parse_line reF ["-a", "x", "-a", "y"] = Except.error PyErr.nameError := rfl

/-- C7: the numeric-range validator built by `utils.parse_int_in_range 50 4096`:
`"4096"` fails out of range (exclusive upper bound), `"4095"` and `"50"`
succeed (inclusive lower bound, returning the bare integer), `"49"` fails,
and a non-parseable token fails with the `Expected an integer` result. -/
theorem c7_range_validator :
    Utils.parse_int_in_range 50 4096 (.str "4096") =
      Except.ok (.inl ⟨.bool false, .str "Expected input to be in range 50-4096",
        .dict [("input", .int 4096)]⟩) ∧
    Utils.parse_int_in_range 50 4096 (.str "4095") = Except.ok (.inr 4095) ∧
    Utils.parse_int_in_range 50 4096 (.str "50") = Except.ok (.inr 50) ∧
    Utils.parse_int_in_range 50 4096 (.str "49") =
      Except.ok (.inl ⟨.bool false, .str "Expected input to be in range 50-4096",
        .dict [("input", .int 49)]⟩) ∧
    Utils.parse_int_in_range 50 4096 (.str "notanumber") =
      Except.ok (.inl ⟨.none, .str "Expected an integer, got notanumber",
        .str "notanumber"⟩) :=
  ⟨rfl, rfl, rfl, rfl, rfl⟩

/-- C8: the claim says a mapping validator accepts exactly the keys of the
mapping and returns the mapped value, in particular a key mapped to `False`.
The code's `elif value := validator.get(args):` (cli_parser.py line 103)
branches on the *truthiness of the mapped value*: for the mapping
`{'off': False, 'on': True}` the key `"off"` is rejected — with a message
that itself lists `off` among the expected values. -/
theorem c8_falsy_mapped_value_rejected :
    validate reF (.str "off") (.dictV [("off", .bool false), ("on", .bool true)]) "" =
      ⟨.bool false, .str "Expected value(s): `off, on`, got `off`", .str "off"⟩ ∧
    validate reF (.str "on") (.dictV [("off", .bool false), ("on", .bool true)]) "" =
      ⟨.bool true, .none, .bool true⟩ :=
  ⟨rfl, rfl⟩

/-- C1 (counterexample): the claim says `cmd p1 p2 -flag v` parses
successfully with positionals `["p1","p2"]` and `flag="v"`.  The code
(cli_parser.py line 424) rejects any token run before the first flag marker:
the parse returns a failed `Result` carrying the redundant-arguments
message. -/
theorem c1_counterexample :
    cmdFlag1.parse_line reF ["p1", "p2", "-flag", "v"] =
      Except.ok (⟨.bool false,
        .str "cmd: Redundant arguments passed before flag .flag",
        .list [.str "p1", .str "p2", .str "-flag", .str "v"]⟩, cmdFlag1) := rfl

/-- C5 (counterexample): the claim says `-no_flag` resolves to the
registered flag `flag` with an invert modifier.  The code looks the token
remainder up literally: with only `flag` registered, `-no_flag` fails with
`cmd.no_flag: No specification provided`. -/
theorem c5_counterexample :
    cmdFlag1.parse_line reF ["-no_flag", "v"] =
      Except.ok (⟨.bool false, .str "cmd.no_flag: No specification provided",
        .list [.str "-no_flag", .str "v"]⟩, cmdFlag1) := rfl

/-- C10 (counterexample): the claim says every command whose validator is a
regex string, allowed-strings list, or mapping fails on two or more
positionals with an `Expected string` error.  A command whose validator is
the *empty* list `[]` is falsy, so `if self.validator:` (cli_parser.py
line 507) skips validation entirely and the parse succeeds. -/
theorem c10_counterexample :
    cmdEmptyListV.parse_args reF ["p", "q"] none =
      Except.ok (⟨.bool true, .none, .none⟩,
        {cmdEmptyListV with args := .list [.str "p", .str "q"]}) := rfl

/-- C5 (amended): for a token starting with `-` in the pre-`--` token list,
the flag name is exactly the remainder of the token after the single
leading `-`, looked up literally in the command's flag map — no `-`/`_`
normalisation and no `no_`/`toggle_` prefix stripping.  If the literal
remainder is not a registered flag name or alias, the parse fails with
`{command}.{remainder}: No specification provided`. -/
theorem c5_flag_name_is_literal_remainder
    (reI : String → String → Bool) (c : Command) (m w : String)
    (rest : List String)
    (hm : m.data = '-' :: w.data)
    (hnf : c.getFlagObj w = none)
    (hdd : "--" ∉ m :: rest) :
    c.parse_line reI (m :: rest) =
      Except.ok (⟨.bool false,
        .str (c.name ++ "." ++ w ++ ": No specification provided"),
        .list ((m :: rest).map .str)⟩, c) := by
  have hIdx : listIndex (m :: rest) "--" = none := listIndex_eq_none hdd
  have hscan : c.scanFlags (m :: rest) (m :: rest) 0 [] 0 =
      pure (.inl ⟨.bool false,
        .str (c.name ++ "." ++ w ++ ": No specification provided"),
        .list ((m :: rest).map .str)⟩) := by
    rw [Command.scanFlags, hm]
    simp only [if_pos rfl]
    rw [show (⟨w.data⟩ : String) = w from rfl]
    rw [hnf]
    simp
  unfold Command.parse_line
  rw [hIdx]
  simp only [hscan, bind, Except.bind, pure, Except.pure]

/-- C1 (amended): leading non-flag tokens before the first flag marker are
*rejected*, not kept as positionals: for any registered command, a token
list of one or more non-flag tokens followed by a resolvable flag marker
fails with `{command}: Redundant arguments passed before flag .{name}`
(cli_parser.py line 424-425). -/
theorem c1_leading_positionals_rejected
    (reI : String → String → Bool) (c : Command) (ps rest : List String)
    (m w : String) (fl : Flag)
    (hps : ps ≠ [])
    (hnd : ∀ p ∈ ps, p.data ≠ [] ∧ p.data.head? ≠ some '-')
    (hm : m.data = '-' :: w.data)
    (hfl : c.getFlagObj w = some fl)
    (hdd : "--" ∉ ps ++ m :: rest) :
    c.parse_line reI (ps ++ m :: rest) =
      Except.ok (⟨.bool false,
        .str (c.name ++ ": Redundant arguments passed before flag ." ++ w),
        .list ((ps ++ m :: rest).map .str)⟩, c) := by
  have hIdx : listIndex (ps ++ m :: rest) "--" = none := listIndex_eq_none hdd
  have hlen : 0 < ps.length := List.length_pos.mpr hps
  have hscan : c.scanFlags (ps ++ m :: rest) (ps ++ m :: rest) 0 [] 0 =
      pure (.inl ⟨.bool false,
        .str (c.name ++ ": Redundant arguments passed before flag ." ++ w),
        .list ((ps ++ m :: rest).map .str)⟩) := by
    rw [scanFlags_append_nonflag c (ps ++ m :: rest) ps (m :: rest) 0 [] 0 hnd]
    rw [Command.scanFlags, hm]
    simp only [if_pos rfl]
    rw [show (⟨w.data⟩ : String) = w from rfl]
    rw [hfl]
    have hgt : 0 + ps.length > 0 := by omega
    simp [posGet, hgt]
    intro h
    exact absurd h hps
  unfold Command.parse_line
  rw [hIdx]
  simp only [hscan, bind, Except.bind, pure, Except.pure]

/-- C6: one-shot extraction.  After a successful `set_value` of a single
token (the code's counterpart of `validate(x, put=true)`) that leaves the
flag's current value set, `extract()` returns the stored (transformed)
value — which is also the `value` of the success `Result` — and resets the
current value to unset, so a second `extract()` without an intervening set
returns the configured default.  (`extract` is modelled from the spec; see
its definition.) -/
theorem c6_one_shot_extract
    (reI : String → String → Bool) (f : Flag) (pre : String) (x : PyVal)
    (r : Result) (f1 : Flag)
    (h : f.set_value reI (.list [x]) pre = (r, f1))
    (hok : r.ok = .bool true)
    (hset : PyVal.beq f1.value .none = false) :
    f1.extract.1 = r.value ∧ f1.extract.2.value = .none ∧
      f1.extract.2.extract.1 = f.default := by
  have h' : f.set_value_aux reI x pre = (r, f1) := by
    simpa [Flag.set_value] using h
  unfold Flag.set_value_aux at h'
  split at h'
  case isTrue hxn =>
    split at h'
    case isTrue h0 =>
      injection h' with h1 h2
      rw [← h1] at hok
      simp at hok
    case isFalse h0 =>
      unfold Flag.set_value_fin at h'
      split at h'
      case isTrue hres =>
        injection h' with h1 h2
        rw [← h1] at hok
        rw [hok] at hres
        simp [pyTruthy] at hres
      case isFalse hres =>
        injection h' with h1 h2
        subst h2
        rw [← h1]
        refine ⟨?_, ?_, ?_⟩ <;> simp [Flag.extract, hset, PyVal.beq]
  case isFalse hxn =>
    split at h'
    case isTrue h1' =>
      injection h' with h1 h2
      rw [← h1] at hok
      simp at hok
    case isFalse h1' =>
      injection h' with h1 h2
      subst h2
      rw [← h1]
      refine ⟨?_, ?_, ?_⟩ <;> simp [Flag.extract, PyVal.beq]

/-- C9: aliases are not independent objects — after a successful `add_flag`,
the canonical name and every alias resolve to the same store index (i.e.
the same `Flag` object), and writing the flag's value through any alias is
observable when reading through the canonical name or any other alias. -/
theorem c9_alias_shared_instance
    (c : Command) (name : String) (nargs : PyVal) (validator : Validator)
    (default : PyVal) (aliases : List String) (c' : Command) (a : String)
    (v : PyVal)
    (hadd : c.add_flag name nargs validator default aliases = Except.ok c')
    (ha : a ∈ aliases) :
    c'.flagId a = some c.store.length ∧
    c'.flagId name = some c.store.length ∧
    ∃ c'', c'.writeFlagValue a v = some c'' ∧
      c''.getItem name = some v ∧
      ∀ b ∈ aliases, c''.getItem b = some v := by
  unfold Command.add_flag at hadd
  split at hadd
  case isTrue hguard => exact absurd hadd (by simp [throw, throwThe, MonadExceptOf.throw])
  case isFalse hguard =>
    injection hadd with hc'
    have hfa : c'.flagId a = some c.store.length := by
      rw [← hc']
      exact foldl_addAliasStep_flags c.store.length aliases _ a (Or.inl ha)
    have hfn : c'.flagId name = some c.store.length := by
      rw [← hc']
      exact foldl_addAliasStep_flags c.store.length aliases _ name
        (Or.inr (dictGet_dictSet_self c.flags name c.store.length))
    have hstore : c'.store =
        c.store ++ [⟨c.name, name, nargs, validator, .none, default, aliases⟩] := by
      rw [← hc']
      exact foldl_addAliasStep_store c.store.length aliases _
    have hget : c'.store.get? c.store.length =
        some ⟨c.name, name, nargs, validator, .none, default, aliases⟩ := by
      rw [hstore]
      exact get?_append_length c.store _
    have hlt : c.store.length < c'.store.length := by
      rw [hstore]
      simp
    have hget' : ∀ k : String, c'.flagId k = some c.store.length →
        (c'.setStore c.store.length
          {(⟨c.name, name, nargs, validator, .none, default, aliases⟩ : Flag) with
            value := v}).getItem k = some v := by
      intro k hk
      unfold Command.getItem Command.getFlagObj Command.setStore
      dsimp only
      rw [show dictGet c'.flags k = c'.flagId k from rfl, hk]
      simp only [Option.some_bind]
      rw [get?_set_self _ _ _ hlt]
      rfl
    refine ⟨hfa, hfn,
      c'.setStore c.store.length
        {(⟨c.name, name, nargs, validator, .none, default, aliases⟩ : Flag) with
          value := v}, ?_, ?_, ?_⟩
    · unfold Command.writeFlagValue
      rw [hfa]
      simp only [Option.some_bind]
      rw [hget]
      rfl
    · exact hget' name hfn
    · intro b hb
      apply hget' b
      rw [← hc']
      exact foldl_addAliasStep_flags c.store.length aliases _ b (Or.inl hb)

/-- C10 (amended): for a command whose validator is a *non-empty* regex
string, allowed-strings list, or string-keyed mapping, whenever
`parse_line` succeeds with a positional list of two or more tokens,
`parse_args` fails with the `Expected string` validation error, regardless
of the tokens' contents: only a single positional (unwrapped by `validate`)
can satisfy such a validator. -/
theorem c10_multi_positional_expected_string
    (reI : String → String → Bool) (c : Command) (args : List String)
    (p1 p2 : PyVal) (ps : List PyVal) (kw : List (String × PyVal))
    (c1 : Command)
    (hpl : c.parse_line reI args =
      Except.ok (⟨.bool true, .none, .tuple (.list (p1 :: p2 :: ps)) (.dict kw)⟩, c1))
    (hv : (∃ pat, pat ≠ "" ∧ c1.validator = .strV pat) ∨
          (∃ xs, xs ≠ [] ∧ c1.validator = .listV xs) ∨
          (∃ es, es ≠ [] ∧ c1.validator = .dictV es)) :
    c.parse_args reI args none =
      Except.ok (⟨.bool false,
        .str (make_msg (c.name ++ " (arguments)")
          ("Expected string, got `" ++ pyStr (.list (p1 :: p2 :: ps)) ++ "`")),
        .list (p1 :: p2 :: ps)⟩, c1) := by
  unfold Command.parse_args
  rw [hpl]
  simp only [bind, Except.bind, pure, Except.pure, pyTruthy, Bool.not_true,
    Bool.false_eq_true, if_false]
  rcases hv with ⟨pat, hne, hvv⟩ | ⟨xs, hne, hvv⟩ | ⟨es, hne, hvv⟩ <;>
    rw [hvv] <;>
    simp [vTruthy, validate, pyTruthy, bne_iff_ne, hne]

/-- Witness for C1: instantiating the amended theorem at
`cmd p1 p2 -flag v` with the arity-1 flag `flag` registered. -/
theorem c1_witness :
    cmdFlag1.parse_line reF (["p1", "p2"] ++ "-flag" :: ["v"]) =
      Except.ok (⟨.bool false,
        .str (cmdFlag1.name ++ ": Redundant arguments passed before flag ." ++ "flag"),
        .list ((["p1", "p2"] ++ "-flag" :: ["v"]).map .str)⟩, cmdFlag1) :=
  c1_leading_positionals_rejected reF cmdFlag1 ["p1", "p2"] ["v"] "-flag" "flag"
    ⟨"cmd", "flag", .int 1, .noneV, .none, .none, []⟩
    (by decide) (by decide) rfl rfl (by decide)

/-- Witness for C5: instantiating the amended theorem at `-no_flag v` with
only `flag` registered — the literal name `no_flag` is unresolved. -/
theorem c5_witness :
    cmdFlag1.parse_line reF ("-no_flag" :: ["v"]) =
      Except.ok (⟨.bool false,
        .str (cmdFlag1.name ++ "." ++ "no_flag" ++ ": No specification provided"),
        .list (("-no_flag" :: ["v"]).map .str)⟩, cmdFlag1) :=
  c5_flag_name_is_literal_remainder reF cmdFlag1 "-no_flag" "no_flag" ["v"]
    rfl rfl (by decide)

/-- Witness for C6: a concrete arity-1 flag with default `'dflt'` set to the
token `"v"`. -/
theorem c6_witness :
    flC6v.extract.1 = PyVal.str "v" ∧ flC6v.extract.2.value = PyVal.none ∧
      flC6v.extract.2.extract.1 = flC6.default :=
  c6_one_shot_extract reF flC6 "" (.str "v") ⟨.bool true, .none, .str "v"⟩ flC6v
    rfl rfl rfl

/-- Witness for C9: flag `verbose` with aliases `v`, `vb`; write through
`v`, read through `verbose` and both aliases. -/
theorem c9_witness :
    cmdC9.flagId "v" = some cmdC9base.store.length ∧
    cmdC9.flagId "verbose" = some cmdC9base.store.length ∧
    ∃ c'', cmdC9.writeFlagValue "v" (.str "yes") = some c'' ∧
      c''.getItem "verbose" = some (.str "yes") ∧
      ∀ b ∈ ["v", "vb"], c''.getItem b = some (.str "yes") :=
  c9_alias_shared_instance cmdC9base "verbose" (.int 1) .noneV .none ["v", "vb"]
    cmdC9 "v" (.str "yes") rfl (by decide)

/-- Witness for C10: the command with validator `["x"]` on the two
positionals `p q`. -/
theorem c10_witness :
    cmdListV.parse_args reF ["p", "q"] none =
      Except.ok (⟨.bool false,
        .str (make_msg (cmdListV.name ++ " (arguments)")
          ("Expected string, got `" ++ pyStr (.list [.str "p", .str "q"]) ++ "`")),
        .list [.str "p", .str "q"]⟩, cmdListV) :=
  c10_multi_positional_expected_string reF cmdListV ["p", "q"]
    (.str "p") (.str "q") [] [] cmdListV rfl
    (Or.inr (Or.inl ⟨["x"], by decide, rfl⟩))
